import Mathlib

/-!
Shallow embedding of the `current_previous` Rust crate (src/lib.rs).

The crate exposes a single generic struct `CurrentPrevious<T>` with fields
`current: T` and `previous: Option<T>` (derive Clone, Copy, Debug), and the
methods `new`, `current`, `previous`, `update`, `reset`, `clear_previous`.
Each method is embedded below as a pure function on the record; the `&mut self`
methods become state-to-state functions.
-/

/-- Embedding of `struct CurrentPrevious<T> { current: T, previous: Option<T> }`. -/
structure CurrentPrevious (T : Type) where
  current : T
  previous : Option T
deriving DecidableEq

namespace CurrentPrevious

variable {T : Type}

/-- Embedding of `pub fn new(initial: T) -> Self`:
`Self { current: initial, previous: None }`. -/
def new (initial : T) : CurrentPrevious T :=
  { current := initial, previous := none }

/-- Embedding of `pub fn current(&self) -> &T`. The method takes a shared
borrow, so it returns the viewed value together with the (unchanged) receiver. -/
def currentRead (s : CurrentPrevious T) : T × CurrentPrevious T :=
  (s.current, s)

/-- Embedding of `pub fn previous(&self) -> Option<&T>` (`self.previous.as_ref()`).
The method takes a shared borrow, so it returns the viewed value together with
the (unchanged) receiver. -/
def previousRead (s : CurrentPrevious T) : Option T × CurrentPrevious T :=
  (s.previous, s)

/-- Embedding of `pub fn update(&mut self, new: T)`:
`self.previous = Some(std::mem::replace(&mut self.current, new))`. -/
def update (s : CurrentPrevious T) (new : T) : CurrentPrevious T :=
  { current := new, previous := some s.current }

/-- Embedding of `pub fn reset(&mut self, new: T)`: `*self = Self::new(new)`. -/
def reset (_s : CurrentPrevious T) (new : T) : CurrentPrevious T :=
  CurrentPrevious.new new

/-- Embedding of `pub fn clear_previous(&mut self)`: `self.previous = None`. -/
def clear_previous (s : CurrentPrevious T) : CurrentPrevious T :=
  { s with previous := none }

/-- Embedding of `#[derive(Clone)]` for a `Copy` type: duplication is a
bitwise copy of the value. -/
def clone (s : CurrentPrevious T) : CurrentPrevious T :=
  s

/-- One invocation of a public method of `CurrentPrevious<T>`, as data:
the three `&mut self` methods and the two `&self` read accessors. -/
inductive Op (T : Type) where
  | update (v : T)
  | reset (v : T)
  | clearPrevious
  | readCurrent
  | readPrevious
deriving DecidableEq

/-- State transition performed by one method invocation. The read accessors
take `&self` only, so their transition returns the receiver component of the
embedding unchanged. -/
def applyOp (op : Op T) (s : CurrentPrevious T) : CurrentPrevious T :=
  match op with
  | Op.update v => s.update v
  | Op.reset v => s.reset v
  | Op.clearPrevious => s.clear_previous
  | Op.readCurrent => (s.currentRead).2
  | Op.readPrevious => (s.previousRead).2

/-- Whether a method invocation is one of `update`, `reset`, `clear_previous`:
the three methods that write to the `previous` field in the source. -/
def mutatesPrevious : Op T → Bool
  | Op.update _ => true
  | Op.reset _ => true
  | Op.clearPrevious => true
  | Op.readCurrent => false
  | Op.readPrevious => false

/-- State obtained by constructing a tracker with `new v` and then performing
the given sequence of method invocations. -/
def run (v : T) (ops : List (Op T)) : CurrentPrevious T :=
  ops.foldl (fun s op => applyOp op s) (CurrentPrevious.new v)

/-- A state is reachable when some constructor call followed by some sequence
of public method invocations produces it. -/
def Reachable (s : CurrentPrevious T) : Prop :=
  ∃ v ops, run v ops = s

/-- Applying an operation to the duplicate component of an (original, duplicate)
pair, leaving the original component alone: the two trackers are distinct
values, as for a Rust `Copy` type. -/
def applyToDup (w : CurrentPrevious T × CurrentPrevious T) (op : Op T) :
    CurrentPrevious T × CurrentPrevious T :=
  (w.1, applyOp op w.2)

/-- Applying an operation to the original component of an (original, duplicate)
pair, leaving the duplicate component alone. -/
def applyToOrig (w : CurrentPrevious T × CurrentPrevious T) (op : Op T) :
    CurrentPrevious T × CurrentPrevious T :=
  (applyOp op w.1, w.2)

end CurrentPrevious

open CurrentPrevious

/-- Claim C1: for every tracker state `s` and value `v`, after `update v` the
current value is `v` and the previous value is exactly the value `current` held
immediately before the call, whatever the previous slot held before. -/
theorem update_postcondition {T : Type} (s : CurrentPrevious T) (v : T) :
    (s.update v).current = v ∧ (s.update v).previous = some s.current :=
  ⟨rfl, rfl⟩

/-- Claim C2: for every initial value `v`, `new v` has current value `v` and an
absent previous value. -/
theorem new_postcondition {T : Type} (v : T) :
    (CurrentPrevious.new v).current = v ∧ (CurrentPrevious.new v).previous = none :=
  ⟨rfl, rfl⟩

/-- Claim C3: for every tracker state `s` and value `v`, `reset v` yields
exactly the state produced by `new v`: current is `v` and previous is absent,
the prior previous value being discarded. -/
theorem reset_eq_new {T : Type} (s : CurrentPrevious T) (v : T) :
    s.reset v = CurrentPrevious.new v ∧ (s.reset v).current = v ∧
      (s.reset v).previous = none :=
  ⟨rfl, rfl, rfl⟩

/-- Claim C4: after `new v0`, `update v1`, `update v2`, the current value is
`v2` and the previous value is `v1`; when `v0` differs from both `v1` and `v2`
neither accessor can return `v0`, so only one step of history is kept. -/
theorem chained_updates {T : Type} (v0 v1 v2 : T) :
    ((CurrentPrevious.new v0).update v1 |>.update v2).current = v2 ∧
    ((CurrentPrevious.new v0).update v1 |>.update v2).previous = some v1 ∧
    (v0 ≠ v1 → v0 ≠ v2 →
      ((CurrentPrevious.new v0).update v1 |>.update v2).current ≠ v0 ∧
      ((CurrentPrevious.new v0).update v1 |>.update v2).previous ≠ some v0) := by
  refine ⟨rfl, rfl, fun h01 h02 => ⟨fun h => h02 h.symm, fun h => ?_⟩⟩
  exact h01 (Option.some_injective T h).symm

/-- Witness for claim C4 at the concrete run `new 0`, `update 1`, `update 2`
over the natural numbers. -/
theorem chained_updates_witness :
    ((0 : ℕ) ≠ 1 ∧ (0 : ℕ) ≠ 2) ∧
    ((CurrentPrevious.new (0 : ℕ)).update 1 |>.update 2).current = 2 ∧
    ((CurrentPrevious.new (0 : ℕ)).update 1 |>.update 2).previous = some 1 ∧
    ((CurrentPrevious.new (0 : ℕ)).update 1 |>.update 2).current ≠ 0 ∧
    ((CurrentPrevious.new (0 : ℕ)).update 1 |>.update 2).previous ≠ some 0 :=
  ⟨⟨by decide, by decide⟩, (chained_updates 0 1 2).1, (chained_updates 0 1 2).2.1,
    (chained_updates 0 1 2).2.2 (by decide) (by decide)⟩

/-- Claim C5: for every tracker state `s`, `clear_previous` makes the previous
value absent and leaves the current value exactly as it was. -/
theorem clear_previous_postcondition {T : Type} (s : CurrentPrevious T) :
    (s.clear_previous).previous = none ∧ (s.clear_previous).current = s.current :=
  ⟨rfl, rfl⟩

/-- Claim C6: `clear_previous` is idempotent: applying it twice yields exactly
the same tracker state as applying it once. -/
theorem clear_previous_idempotent {T : Type} (s : CurrentPrevious T) :
    (s.clear_previous).clear_previous = s.clear_previous :=
  rfl

/-- Claim C7: every state of the type is reachable through the public
operations, and every method invocation maps a reachable state to a reachable
state: the operations are total and no invalid state arises. -/
theorem operations_total_no_invalid_state {T : Type} (s : CurrentPrevious T) :
    Reachable s ∧ ∀ op : Op T, Reachable (applyOp op s) := by
  have hreach : Reachable s := by
    rcases s with ⟨c, p⟩
    cases p with
    | none => exact ⟨c, [], rfl⟩
    | some pv => exact ⟨pv, [Op.update c], rfl⟩
  refine ⟨hreach, fun op => ?_⟩
  obtain ⟨v, ops, hrun⟩ := hreach
  refine ⟨v, ops ++ [op], ?_⟩
  simp only [run, List.foldl_append, List.foldl_cons, List.foldl_nil]
  simp only [run] at hrun
  rw [hrun]

/-- Claim C8: the read accessors return the receiver unchanged (both slots kept
as they were), and any invocation that changes the `previous` field is one of
`update`, `reset`, `clear_previous`. -/
theorem reads_pure_previous_only_by_mutators {T : Type} (s : CurrentPrevious T) :
    (s.currentRead).2 = s ∧ (s.previousRead).2 = s ∧
      ∀ op : Op T, (applyOp op s).previous ≠ s.previous → mutatesPrevious op = true := by
  refine ⟨rfl, rfl, fun op h => ?_⟩
  cases op with
  | update v => rfl
  | reset v => rfl
  | clearPrevious => rfl
  | readCurrent => exact absurd rfl h
  | readPrevious => exact absurd rfl h

/-- Witness for claim C8: on the state `update (new 0) 1`, the invocation
`clear_previous` does change the previous field and is classified as a mutator
of the previous slot. -/
theorem reads_pure_witness :
    (applyOp Op.clearPrevious ((CurrentPrevious.new (0 : ℕ)).update 1)).previous ≠
      ((CurrentPrevious.new (0 : ℕ)).update 1).previous ∧
    mutatesPrevious (Op.clearPrevious : Op ℕ) = true :=
  ⟨by decide,
    (reads_pure_previous_only_by_mutators ((CurrentPrevious.new (0 : ℕ)).update 1)).2.2
      Op.clearPrevious (by decide)⟩

/-- Claim C9: duplicating a tracker and mutating the duplicate leaves both
slots of the original unchanged, and mutating the original leaves both slots of
the duplicate unchanged, for every method invocation. -/
theorem copy_independence {T : Type} (s : CurrentPrevious T) (op : Op T) :
    (applyToDup (s, s.clone) op).1.current = s.current ∧
    (applyToDup (s, s.clone) op).1.previous = s.previous ∧
    (applyToOrig (s, s.clone) op).2.current = s.current ∧
    (applyToOrig (s, s.clone) op).2.previous = s.previous :=
  ⟨rfl, rfl, rfl, rfl⟩

/-- Claim C10: for every tracker state `s` and value `v`, `reset v` yields
exactly the same state as `update v` followed by `clear_previous`. -/
theorem reset_eq_update_then_clear {T : Type} (s : CurrentPrevious T) (v : T) :
    s.reset v = (s.update v).clear_previous :=
  rfl
